import Mathlib

/-!
Shallow embedding of the LED-Rails firmware core (src/src/main.cpp,
src/include/timetable.h, src/include/buttons.h) and proofs about it.

Machine integers are modeled as `Nat`/`Int` with explicit reductions:
a C++ `uint8_t` store reduces modulo 256, a `uint16_t` value modulo 2^16,
and a `static_cast<int32_t>` of unsigned arithmetic is the two's-complement
reinterpretation modulo 2^32.  The strand sizes `LED_1_PIXELS`,
`LED_2_PIXELS` and the presence of `LED_2_PIN` come from per-board files
that are not part of the sources, so they are parameters (`LedConfig`).
The gamma curve `pow(v/255.0f, 2.0) * 255.0f` truncated to `uint8_t` is
modeled as the exact integer `v * v / 255`; no claim here depends on the
numeric value of the gamma curve beyond `gamma 0 = 0` and `gamma 255 = 255`,
where the float computation is exact.
-/

set_option maxRecDepth 100000

namespace LedRails

/-- RGB color triple, one channel value in `[0, 255]` each (FastLED `CRGB`). -/
structure CRGB where
  r : Nat
  g : Nat
  b : Nat
  deriving DecidableEq, Repr

/-- The constant `CRGB black = CRGB::Black` of main.cpp. -/
def black : CRGB := ⟨0, 0, 0⟩

/-- Gamma correction with gamma = 2.0 applied per channel in
`setBlockColorRGB`: `pow(value / 255.0f, 2.0) * 255.0f` truncated to
`uint8_t`, i.e. the integer part of `v * v / 255`. -/
def gammaCorrect (v : Nat) : Nat := v * v / 255

/-- Per-channel gamma correction of a color, as done at the top of
`setBlockColorRGB` before the strand write. -/
def applyGamma (c : CRGB) : CRGB := ⟨gammaCorrect c.r, gammaCorrect c.g, gammaCorrect c.b⟩

/-- Board configuration: strand sizes and presence of the second strand.
These are the `LED_1_PIXELS`, `LED_2_PIN`/`LED_2_PIXELS` build constants
defined in the per-board files (not part of src/). -/
structure LedConfig where
  led1Pixels : Nat
  hasLed2 : Bool
  led2Pixels : Nat
  deriving DecidableEq, Repr

/-- The frame buffer: the `leds1` and `leds2` pixel arrays of main.cpp. -/
structure Frame where
  leds1 : List CRGB
  leds2 : List CRGB
  deriving DecidableEq, Repr

/-- The `clearLEDs` function: fill both strands with black. -/
def clearLEDs (cfg : LedConfig) : Frame :=
  { leds1 := List.replicate cfg.led1Pixels black,
    leds2 := if cfg.hasLed2 then List.replicate cfg.led2Pixels black else [] }

/-- The strand-1 range test of `setBlockColorRGB`:
`block >= 100 && block < 100 + LED_1_PIXELS`. -/
def inStrand1 (cfg : LedConfig) (block : Nat) : Bool :=
  decide (100 ≤ block) && decide (block < 100 + cfg.led1Pixels)

/-- The strand-2 range test of `setBlockColorRGB` (compiled only when
`LED_2_PIN` is defined): `block >= 300 && block < 300 + LED_2_PIXELS`. -/
def inStrand2 (cfg : LedConfig) (block : Nat) : Bool :=
  cfg.hasLed2 && decide (300 ≤ block) && decide (block < 300 + cfg.led2Pixels)

/-- A block is in some configured strand range. -/
def blockInRange (cfg : LedConfig) (block : Nat) : Bool :=
  inStrand1 cfg block || inStrand2 cfg block

/-- The `setBlockColorRGB` function of main.cpp: gamma-correct the color,
then write it to the strand owning `block`; blocks outside both ranges
(including the sentinel 0) leave the frame unchanged (the out-of-range
case only prints a diagnostic). -/
def setBlockColorRGB (cfg : LedConfig) (f : Frame) (block : Nat) (color : CRGB) : Frame :=
  let c := applyGamma color
  if inStrand1 cfg block then
    { f with leds1 := f.leds1.set (block - 100) c }
  else if inStrand2 cfg block then
    { f with leds2 := f.leds2.set (block - 300) c }
  else
    f

/-- Read back the pixel showing `block` (through the same block-to-pixel
mapping used by `setBlockColorRGB`); blocks outside both strands read as
black. -/
def readBlock (cfg : LedConfig) (f : Frame) (block : Nat) : CRGB :=
  if inStrand1 cfg block then f.leds1.getD (block - 100) black
  else if inStrand2 cfg block then f.leds2.getD (block - 300) black
  else black

/-- Well-formedness of a frame for a configuration: the pixel lists have
exactly the sizes of the declared C arrays. -/
def FrameWF (cfg : LedConfig) (f : Frame) : Prop :=
  f.leds1.length = cfg.led1Pixels ∧
    f.leds2.length = (if cfg.hasLed2 then cfg.led2Pixels else 0)

/-- Reduction of an `int` value stored into a `uint8_t` (C++ conversion is
reduction modulo 256). -/
def u8 (n : Int) : Nat := (n % 256).toNat

/-- Reduction of an `int` value stored into a `uint16_t`. -/
def u16 (n : Int) : Nat := (n % 65536).toNat

/-- Two's-complement reinterpretation of an integer as an `int32_t`. -/
def i32 (n : Int) : Int := (n + 2147483648) % 4294967296 - 2147483648

/-- The `LedUpdate` struct of main.cpp: `{uint16_t preBlock; uint16_t
postBlock; int colorId; time_t timestamp;}`. -/
structure LedUpdate where
  preBlock : Nat
  postBlock : Nat
  colorId : Int
  timestamp : Int
  deriving DecidableEq, Repr

/-- Color-table resolution in `setBlockColorId`:
`(colorId >= 0 && colorId < colorTable.size()) ? colorTable[colorId] : black`. -/
def colorLookup (table : List CRGB) (colorId : Int) : CRGB :=
  if 0 ≤ colorId ∧ colorId < (table.length : Int) then table.getD colorId.toNat black
  else black

/-- State threaded through one `drawRealtimeMap` call: the per-call
`uint8_t blockColorIds[512]` priority array and the frame buffer. -/
structure RtState where
  blockColorIds : List Nat
  frame : Frame
  deriving DecidableEq, Repr

/-- The `setBlockColorId` function of main.cpp.  The C code reads
`blockColorIds[block]` with no bound check; `blockColorIds` is a 512-byte
array while `block` is an arbitrary `uint16_t`, so a block of 512 or more
is an out-of-bounds access (undefined behavior), modeled as an error. -/
def setBlockColorId (cfg : LedConfig) (table : List CRGB) (s : RtState)
    (block : Nat) (colorId : Int) : Except String RtState :=
  if block < s.blockColorIds.length then
    if colorId < (s.blockColorIds.getD block 0 : Int) then
      .ok s
    else
      .ok { blockColorIds := s.blockColorIds.set block (u8 colorId),
            frame := setBlockColorRGB cfg s.frame block (colorLookup table colorId) }
  else
    .error "out-of-bounds access to blockColorIds"

/-- Target-block resolution in the `drawRealtimeMap` loop:
`epoch >= update.timestamp ? update.postBlock : update.preBlock`. -/
def resolvedTarget (epoch : Int) (u : LedUpdate) : Nat :=
  if epoch ≥ u.timestamp then u.postBlock else u.preBlock

/-- The `drawRealtimeMap` function of main.cpp: clear the strands, zero
the 512-entry priority array, then fold `setBlockColorId` over the
schedule at the resolved target block of each event. -/
def drawRealtimeMap (cfg : LedConfig) (table : List CRGB) (sched : List LedUpdate)
    (epoch : Int) : Except String Frame :=
  (sched.foldlM
    (fun s u => setBlockColorId cfg table s (resolvedTarget epoch u) u.colorId)
    { blockColorIds := List.replicate 512 0, frame := clearLEDs cfg }).map
    (fun s => s.frame)

/-- The colorIds of the schedule events whose resolved target is `block`. -/
def targetsOf (sched : List LedUpdate) (epoch : Int) (block : Nat) : List Int :=
  (sched.filter (fun u => decide (resolvedTarget epoch u = block))).map (fun u => u.colorId)

/-- Maximum of a list of colorIds, with the priority array's initial
sentinel 0 as the base. -/
def maxColorId (l : List Int) : Int := l.foldl max 0

/-- The mutable schedule state of main.cpp touched by `parseLEDMap`:
the globals `colorTable`, `ledUpdateSchedule`, `nextFetchTime` and
`updateInterval` (a `uint8_t`). -/
structure ScheduleState where
  colorTable : List CRGB
  ledUpdateSchedule : List LedUpdate
  nextFetchTime : Int
  updateInterval : Nat
  deriving DecidableEq, Repr

/-- One entry of the JSON `updates` array: `{"b": [b1, b2], "c": c, "t": t}`.
Missing fields deserialize to 0 in ArduinoJson, so a caller models an
absent field by passing 0. -/
structure RawUpdate where
  b1 : Int
  b2 : Int
  c : Int
  t : Int
  deriving DecidableEq, Repr

/-- A deserialized schedule payload (the JSON document handed to
`parseLEDMap` after `deserializeJson` succeeds).  `update` is `none` when
the key is absent (the code then keeps the previous `updateInterval` via
the `| updateInterval` default); `colors` keeps the JSON object's
insertion order. -/
structure Payload where
  version : String
  timestamp : Int
  update : Option Int
  colors : List (Int × Int × Int)
  updates : List RawUpdate
  deriving DecidableEq, Repr

/-- The `CRGB(rgb[0] | 0, rgb[1] | 0, rgb[2] | 0)` construction: each JSON
int channel is stored into a `uint8_t`. -/
def crgbOfInts (t : Int × Int × Int) : CRGB := ⟨u8 t.1, u8 t.2.1, u8 t.2.2⟩

/-- Conversion of one JSON update entry into a `LedUpdate`, as in the
`parseLEDMap` loop: block fields are stored into `uint16_t`; an offset
`t <= 0` collapses to timestamp 0, `t > 0` to `baseTimestamp + t`. -/
def toLedUpdate (base : Int) (u : RawUpdate) : LedUpdate :=
  { preBlock := u16 u.b1,
    postBlock := u16 u.b2,
    colorId := u.c,
    timestamp := if u.t > 0 then base + u.t else 0 }

/-- The update interval taken from the payload: the assignment
`updateInterval = doc["update"] | updateInterval` (a `uint8_t` store),
which the code performs before the acceptance check. -/
def uiOf (s : ScheduleState) (p : Payload) : Nat :=
  match p.update with
  | some v => u8 v
  | none => s.updateInterval

/-- The `parseLEDMap` function of main.cpp on a successfully deserialized
document: overwrite `updateInterval` from the payload, then accept the
payload only when `baseTimestamp + updateInterval > nextFetchTime`
(otherwise leave the table, schedule and `nextFetchTime` unchanged);
either way return the payload's own `timestamp`. -/
def parseLEDMap (s : ScheduleState) (p : Payload) : ScheduleState × Int :=
  let ui := uiOf s p
  if p.timestamp + (ui : Int) > s.nextFetchTime then
    ({ colorTable := p.colors.map crgbOfInts,
       ledUpdateSchedule := p.updates.map (toLedUpdate p.timestamp),
       nextFetchTime := p.timestamp + (ui : Int),
       updateInterval := ui }, p.timestamp)
  else
    ({ s with updateInterval := ui }, p.timestamp)

/-- The Arduino `constrain(amt, low, high)` macro. -/
def constrain (amt low high : Int) : Int :=
  if amt < low then low else if amt > high then high else amt

/-- Inputs of one realtime-mode fetch step of `loop()`: the current epoch,
whether the `millis() % 1000 > fetchOffset` throttle passed, and the
download result (`none` when `downloadJSON` returned an empty string). -/
structure LoopEnv where
  epoch : Int
  millisOk : Bool
  download : Option Payload
  deriving Repr

/-- The fetch portion of the `REALTIME` branch of `loop()`: when
`epoch > nextFetchTime` and the millis throttle passes, parse whatever was
downloaded (if anything) and then clamp `nextFetchTime` with
`constrain(nextFetchTime, epoch + 6, epoch + updateInterval)`. -/
def loopRealtimeFetch (s : ScheduleState) (env : LoopEnv) : ScheduleState :=
  if env.epoch > s.nextFetchTime ∧ env.millisOk = true then
    let s1 := match env.download with
      | some p => (parseLEDMap s p).1
      | none => s
    { s1 with
      nextFetchTime :=
        constrain s1.nextFetchTime (env.epoch + 6) (env.epoch + (s1.updateInterval : Int)) }
  else s

/-- The `TimetableEntry` struct of timetable.h (`int16_t offsetSeconds;
int16_t blockNumber;`). -/
structure TimetableEntry where
  offsetSeconds : Int
  blockNumber : Int
  deriving DecidableEq, Repr

/-- A concrete train route: the capability set of the abstract `TrainRoute`
class (entries, color, start times).  Routes are immutable compiled data. -/
structure TrainRoute where
  entries : List TimetableEntry
  color : CRGB
  startTimes : List Nat
  deriving DecidableEq, Repr

/-- The `TrainRoute::getCurrentBlock` method: scan entries from last to
first and return the block of the first one found (i.e. the last entry in
order) whose `offsetSeconds <= elapsedSeconds`; fall back to the first
entry's block; an empty route returns 0.  The `int16_t` block number is
returned as a `uint16_t`. -/
def TrainRoute.getCurrentBlock (route : TrainRoute) (elapsedSeconds : Int) : Nat :=
  match route.entries with
  | [] => 0
  | e0 :: _ =>
    match route.entries.reverse.find? (fun e => decide (e.offsetSeconds ≤ elapsedSeconds)) with
    | some e => u16 e.blockNumber
    | none => u16 e0.blockNumber

/-- The elapsed-seconds computation shared by `TrainInstance::getCurrentBlock`
and `TrainInstance::isVisible`: unsigned subtraction when
`current >= startTime`, otherwise `(86400 - startTime) + current` computed
in `uint32_t`, in both cases reinterpreted through `static_cast<int32_t>`. -/
def elapsedSince (startTime current : Nat) : Int :=
  if current ≥ startTime then i32 ((current : Int) - (startTime : Int))
  else i32 (86400 - (startTime : Int) + (current : Int))

/-- The `TrainInstance` class: a route reference plus a start time in
seconds since midnight (`uint32_t`). -/
structure TrainInstance where
  route : TrainRoute
  startTimeSeconds : Nat
  deriving Repr

/-- The `TrainInstance::getCurrentBlock` method. -/
def TrainInstance.getCurrentBlock (t : TrainInstance) (current : Nat) : Nat :=
  t.route.getCurrentBlock (elapsedSince t.startTimeSeconds current)

/-- The `TrainInstance::isVisible` method: false on an empty route,
otherwise elapsed strictly between the first and last entry offsets. -/
def TrainInstance.isVisible (t : TrainInstance) (current : Nat) : Bool :=
  match t.route.entries with
  | [] => false
  | e0 :: rest =>
    let elapsed := elapsedSince t.startTimeSeconds current
    decide (elapsed > e0.offsetSeconds) && decide (elapsed < (rest.getLastD e0).offsetSeconds)

/-- The `createTrainsForRoute` helper of timetable.h: one instance per
start time. -/
def createTrainsForRoute (route : TrainRoute) : List TrainInstance :=
  route.startTimes.map (fun st => { route := route, startTimeSeconds := st })

/-- The per-route body of the `drawTimetableMap` loop: for each train of
the route, if visible, write the route color at its current block. -/
def drawTrainsForRoute (cfg : LedConfig) (second : Nat) (f : Frame) (route : TrainRoute) :
    Frame :=
  (createTrainsForRoute route).foldl
    (fun f tr =>
      if tr.isVisible second then
        setBlockColorRGB cfg f (tr.getCurrentBlock second) route.color
      else f)
    f

/-- The `drawTimetableMap` function of main.cpp: clear the strands, then
iterate the routes in order, drawing every visible train. -/
def drawTimetableMap (cfg : LedConfig) (second : Nat) (routes : List TrainRoute) : Frame :=
  routes.foldl (drawTrainsForRoute cfg second) (clearLEDs cfg)

/-- A route occupies `block` at `second` when one of its trains is visible
and resolves to that block. -/
def routeOccupies (second block : Nat) (route : TrainRoute) : Bool :=
  (createTrainsForRoute route).any
    (fun tr => tr.isVisible second && decide (tr.getCurrentBlock second = block))

/-- Debouncing state of one monitored line (the `Button` struct of
buttons.h without its callback): idle-high `state`, plus the tick counts
of the last falling and rising transitions. -/
structure Btn where
  pin : Nat
  state : Bool
  fallingTick : Nat
  risingTick : Nat
  deriving DecidableEq, Repr

/-- The `ButtonEvent` struct sent through the queue. -/
structure ButtonEvent where
  pin : Nat
  deriving DecidableEq, Repr

/-- `TickType_t` (uint32) subtraction, as in `risingTick - fallingTick`. -/
def u32sub (a b : Nat) : Nat := (((a : Int) - (b : Int)) % 4294967296).toNat

/-- The `ButtonManager::isrWrapper` interrupt handler: on a state change,
record the falling tick on LOW, and on HIGH record the rising tick and
send one event iff the held duration exceeds the debounce threshold
(`pdMS_TO_TICKS(DEBOUNCE_MS)`, here the parameter `debounceTicks`).
The returned option is the event passed to `xQueueSendFromISR`, if any. -/
def isrWrapper (debounceTicks : Nat) (b : Btn) (now : Nat) (newState : Bool) :
    Btn × Option ButtonEvent :=
  if newState ≠ b.state then
    if newState = false then
      ({ b with state := newState, fallingTick := now }, none)
    else
      let b' := { b with state := newState, risingTick := now }
      if u32sub b'.risingTick b'.fallingTick > debounceTicks then
        (b', some ⟨b.pin⟩)
      else
        (b', none)
  else
    (b, none)

/-- Outcome of `ButtonManager::begin` (a `void` function): whether the
queue was created, what was printed to serial, which pins got interrupt
handlers attached, and whether the dispatch task was started. -/
structure BeginOutcome where
  queueCreated : Bool
  serialLog : List String
  attachedInterruptPins : List Nat
  taskStarted : Bool
  deriving DecidableEq, Repr

/-- The `ButtonManager::begin` method: create the queue; on failure print
a diagnostic and return early (attaching no interrupts and starting no
task); on success attach an interrupt per registered button and start the
dispatch task. -/
def buttonManagerBegin (pins : List Nat) (queueCreateOk : Bool) : BeginOutcome :=
  if queueCreateOk = false then
    { queueCreated := false,
      serialLog := ["Failed to create button queue!"],
      attachedInterruptPins := [],
      taskStarted := false }
  else
    { queueCreated := true,
      serialLog := [],
      attachedInterruptPins := pins,
      taskStarted := true }

/-- The value `ButtonManager::begin` hands back to its caller: the C++
declaration is `void begin()`, so every path returns the unit value and
the caller receives no failure indication. -/
def buttonManagerBeginResult (pins : List Nat) (queueCreateOk : Bool) : Unit := ()

/-- The packing in `setStatusLedState`:
`(pin1 << 24) | (cmd1 << 16) | (pin2 << 8) | cmd2` as a `uint32_t`. -/
def packStatusWord (pin1 cmd1 pin2 cmd2 : Nat) : Nat :=
  (((pin1 <<< 24) ||| (cmd1 <<< 16)) ||| (pin2 <<< 8)) ||| cmd2

/-- Slot-id extraction in `statusLedManagerTask`:
`(notification >> (24 - (cmdIdx * 16))) & 0xFF`. -/
def decodeSlotPin (w i : Nat) : Nat := (w >>> (24 - i * 16)) &&& 255

/-- Command extraction in `statusLedManagerTask`:
`(notification >> (16 - (cmdIdx * 16))) & 0xFF`. -/
def decodeSlotCmd (w i : Nat) : Nat := (w >>> (16 - i * 16)) &&& 255

/-- The `statusLed` struct of main.cpp (commands kept as their enum
values 0..6). -/
structure StatusLed where
  pin : Nat
  command : Nat
  currentState : Bool
  lastToggle : Nat
  deriving DecidableEq, Repr

/-- The inner matching loop of `statusLedManagerTask`: find the first led
with the given pin and store the command (the physical pin drive for
non-blinking commands acts on the GPIO, not on this state). -/
def updateFirstLed : List StatusLed → Nat → Nat → List StatusLed
  | [], _, _ => []
  | l :: ls, pin, cmd =>
    if l.pin = pin then { l with command := cmd } :: ls
    else l :: updateFirstLed ls pin cmd

/-- Application of one decoded `(slotId, command)` pair: a slot id of 0
means "no command" and is skipped (`if (pin == 0) continue;`). -/
def applySlotCommand (leds : List StatusLed) (pin cmd : Nat) : List StatusLed :=
  if pin = 0 then leds else updateFirstLed leds pin cmd

/-- Decoding of one notification word in `statusLedManagerTask`: apply the
two packed `(slotId, command)` pairs in order. -/
def processStatusWord (leds : List StatusLed) (w : Nat) : List StatusLed :=
  applySlotCommand (applySlotCommand leds (decodeSlotPin w 0) (decodeSlotCmd w 0))
    (decodeSlotPin w 1) (decodeSlotCmd w 1)

/-! Frame-buffer lemmas. -/

theorem inStrand1_iff {cfg : LedConfig} {b : Nat} :
    inStrand1 cfg b = true ↔ 100 ≤ b ∧ b < 100 + cfg.led1Pixels := by
  simp [inStrand1]

theorem inStrand2_iff {cfg : LedConfig} {b : Nat} :
    inStrand2 cfg b = true ↔ cfg.hasLed2 = true ∧ 300 ≤ b ∧ b < 300 + cfg.led2Pixels := by
  simp [inStrand2, and_assoc]

theorem frameWF_clear (cfg : LedConfig) : FrameWF cfg (clearLEDs cfg) := by
  constructor
  · simp [clearLEDs]
  · simp only [clearLEDs]
    split <;> simp

theorem frameWF_setBlockColorRGB {cfg : LedConfig} {f : Frame} (block : Nat) (color : CRGB)
    (h : FrameWF cfg f) : FrameWF cfg (setBlockColorRGB cfg f block color) := by
  obtain ⟨h1, h2⟩ := h
  simp only [setBlockColorRGB]
  split
  · exact ⟨by simpa using h1, h2⟩
  · split
    · exact ⟨h1, by simpa using h2⟩
    · exact ⟨h1, h2⟩

theorem readBlock_clear (cfg : LedConfig) (b : Nat) :
    readBlock cfg (clearLEDs cfg) b = black := by
  simp only [readBlock, clearLEDs]
  split
  · simp [List.getD_eq_getElem?_getD, List.getElem?_replicate]
    split <;> rfl
  · split
    · split
      · simp [List.getD_eq_getElem?_getD, List.getElem?_replicate]
        split <;> rfl
      · simp [List.getD_eq_getElem?_getD]
    · rfl

theorem readBlock_setBlockColorRGB_ne {cfg : LedConfig} {f : Frame} {b b' : Nat}
    (color : CRGB) (hne : b ≠ b') :
    readBlock cfg (setBlockColorRGB cfg f b' color) b = readBlock cfg f b := by
  have hgd : ∀ (l : List CRGB) (i j : Nat), i ≠ j → ∀ v : CRGB,
      (l.set i v).getD j black = l.getD j black := by
    intro l i j hij v
    rw [List.getD_eq_getElem?_getD, List.getD_eq_getElem?_getD, List.getElem?_set_ne hij]
  simp only [setBlockColorRGB]
  split
  · next h1' =>
    simp only [readBlock]
    by_cases h1 : inStrand1 cfg b = true
    · simp only [h1, ite_true]
      refine hgd _ _ _ ?_ _
      have hb := inStrand1_iff.mp h1
      have hb' := inStrand1_iff.mp h1'
      omega
    · simp [h1]
  · next h1' =>
    split
    · next h2' =>
      simp only [readBlock]
      by_cases h1 : inStrand1 cfg b = true
      · simp [h1]
      · by_cases h2 : inStrand2 cfg b = true
        · simp only [h1, h2, Bool.false_eq_true, ite_false, ite_true]
          refine hgd _ _ _ ?_ _
          have hb := inStrand2_iff.mp h2
          have hb' := inStrand2_iff.mp h2'
          omega
        · simp [h1, h2]
    · rfl

theorem readBlock_setBlockColorRGB_eq {cfg : LedConfig} {f : Frame} {b : Nat}
    (color : CRGB) (hwf : FrameWF cfg f) (hb : blockInRange cfg b = true) :
    readBlock cfg (setBlockColorRGB cfg f b color) b = applyGamma color := by
  obtain ⟨h1, h2⟩ := hwf
  simp only [blockInRange, Bool.or_eq_true] at hb
  simp only [setBlockColorRGB, readBlock]
  rcases hs1 : inStrand1 cfg b with _ | _
  · rcases hs2 : inStrand2 cfg b with _ | _
    · simp [hs1, hs2] at hb
    · have hbb := inStrand2_iff.mp hs2
      have hlen : b - 300 < f.leds2.length := by
        rcases hbb with ⟨hh, _, _⟩
        simp [hh] at h2
        omega
      simp only [Bool.false_eq_true, ite_false, ite_true]
      rw [List.getD_eq_getElem?_getD, List.getElem?_set_self (by simpa using hlen)]
      rfl
  · have hbb := inStrand1_iff.mp hs1
    have hlen : b - 100 < f.leds1.length := by omega
    simp only [ite_true]
    rw [List.getD_eq_getElem?_getD, List.getElem?_set_self (by simpa using hlen)]
    rfl

/-! List access helpers. -/

theorem getD_set_self {α : Type} (l : List α) (i : Nat) (v d : α) (h : i < l.length) :
    (l.set i v).getD i d = v := by
  rw [List.getD_eq_getElem?_getD, List.getElem?_set_self (by simpa using h)]
  rfl

theorem getD_set_of_ne {α : Type} (l : List α) {i j : Nat} (v d : α) (h : i ≠ j) :
    (l.set i v).getD j d = l.getD j d := by
  rw [List.getD_eq_getElem?_getD, List.getD_eq_getElem?_getD, List.getElem?_set_ne h]

theorem getD_replicate_self {α : Type} (n i : Nat) (a : α) :
    (List.replicate n a).getD i a = a := by
  rw [List.getD_eq_getElem?_getD, List.getElem?_replicate]
  split <;> rfl

/-! Realtime renderer: what the `drawRealtimeMap` fold computes when every
resolved target stays inside the 512-entry priority array. -/

/-- The committing step of `drawRealtimeMap` with the bound check already
discharged: the body of `setBlockColorId` on an in-bounds block. -/
def rtStep (cfg : LedConfig) (table : List CRGB) (epoch : Int) (s : RtState)
    (u : LedUpdate) : RtState :=
  if u.colorId < (s.blockColorIds.getD (resolvedTarget epoch u) 0 : Int) then s
  else
    { blockColorIds := s.blockColorIds.set (resolvedTarget epoch u) (u8 u.colorId),
      frame :=
        setBlockColorRGB cfg s.frame (resolvedTarget epoch u) (colorLookup table u.colorId) }

theorem setBlockColorId_ok (cfg : LedConfig) (table : List CRGB) (epoch : Int)
    (s : RtState) (u : LedUpdate) (h : resolvedTarget epoch u < s.blockColorIds.length) :
    setBlockColorId cfg table s (resolvedTarget epoch u) u.colorId =
      .ok (rtStep cfg table epoch s u) := by
  unfold setBlockColorId rtStep
  rw [if_pos h]
  split <;> rfl

theorem rtStep_length (cfg : LedConfig) (table : List CRGB) (epoch : Int)
    (s : RtState) (u : LedUpdate) :
    (rtStep cfg table epoch s u).blockColorIds.length = s.blockColorIds.length := by
  unfold rtStep
  split
  · rfl
  · simp

theorem foldlM_setBlockColorId_ok (cfg : LedConfig) (table : List CRGB) (epoch : Int) :
    ∀ (sched : List LedUpdate) (s : RtState),
    s.blockColorIds.length = 512 →
    (∀ u ∈ sched, resolvedTarget epoch u < 512) →
    sched.foldlM
        (fun s u => setBlockColorId cfg table s (resolvedTarget epoch u) u.colorId) s =
      .ok (sched.foldl (rtStep cfg table epoch) s)
  | [], s, _, _ => rfl
  | u :: us, s, hlen, ht => by
    rw [List.foldlM_cons, setBlockColorId_ok cfg table epoch s u (by rw [hlen]; exact ht u (by simp))]
    show us.foldlM _ (rtStep cfg table epoch s u) = _
    rw [foldlM_setBlockColorId_ok cfg table epoch us (rtStep cfg table epoch s u)
      (by rw [rtStep_length]; exact hlen) (fun v hv => ht v (by simp [hv]))]
    rfl

theorem maxColorId_append_singleton (l : List Int) (c : Int) :
    maxColorId (l ++ [c]) = max (maxColorId l) c := by
  simp [maxColorId, List.foldl_append]

theorem targetsOf_cons (u : LedUpdate) (us : List LedUpdate) (epoch : Int) (B : Nat) :
    targetsOf (u :: us) epoch B =
      if resolvedTarget epoch u = B then u.colorId :: targetsOf us epoch B
      else targetsOf us epoch B := by
  simp only [targetsOf, List.filter_cons]
  split
  · next h =>
    rw [if_pos (by simpa using h)]
    rfl
  · next h =>
    rw [if_neg (by simpa using h)]

theorem maxColorId_perm {l₁ l₂ : List Int} (h : l₁.Perm l₂) :
    maxColorId l₁ = maxColorId l₂ :=
  h.foldl_eq' (fun x _ y _ z => Max.right_comm z x y) 0

theorem targetsOf_perm {sched sched' : List LedUpdate} (epoch : Int) (B : Nat)
    (h : sched.Perm sched') : (targetsOf sched epoch B).Perm (targetsOf sched' epoch B) :=
  (h.filter _).map _

/-- Invariant of the `drawRealtimeMap` fold, tracked for one fixed block `B`:
the priority entry for `B` is the running maximum of the colorIds committed
to `B` so far, and (when `B` is on a strand) its pixel shows the
gamma-corrected table entry of that maximum, or stays black while nothing
targeted `B`. -/
theorem rt_fold_invariant (cfg : LedConfig) (table : List CRGB) (epoch : Int) (B : Nat) :
    ∀ (sched : List LedUpdate) (s : RtState) (acc : List Int),
    FrameWF cfg s.frame →
    s.blockColorIds.length = 512 →
    (∀ u ∈ sched, 0 ≤ u.colorId ∧ u.colorId ≤ 255) →
    (∀ u ∈ sched, resolvedTarget epoch u < 512) →
    (∀ c ∈ acc, 0 ≤ c) →
    ((s.blockColorIds.getD B 0 : Int) = maxColorId acc) →
    (blockInRange cfg B = true →
      readBlock cfg s.frame B =
        (if acc = [] then black else applyGamma (colorLookup table (maxColorId acc)))) →
    FrameWF cfg (sched.foldl (rtStep cfg table epoch) s).frame ∧
      (((sched.foldl (rtStep cfg table epoch) s).blockColorIds.getD B 0 : Int) =
        maxColorId (acc ++ targetsOf sched epoch B)) ∧
      (blockInRange cfg B = true →
        readBlock cfg (sched.foldl (rtStep cfg table epoch) s).frame B =
          (if acc ++ targetsOf sched epoch B = [] then black
           else applyGamma (colorLookup table (maxColorId (acc ++ targetsOf sched epoch B)))))
  | [], s, acc, hwf, _, _, _, _, hprior, hframe => by
    simp only [List.foldl_nil, targetsOf, List.filter_nil, List.map_nil, List.append_nil]
    exact ⟨hwf, hprior, hframe⟩
  | u :: us, s, acc, hwf, hlen, hc, ht, hacc, hprior, hframe => by
    rw [List.foldl_cons, targetsOf_cons]
    have hcu := hc u (by simp)
    have htu := ht u (by simp)
    by_cases hT : resolvedTarget epoch u = B
    · rw [if_pos hT, List.append_cons]
      by_cases hskip : u.colorId < (s.blockColorIds.getD (resolvedTarget epoch u) 0 : Int)
      · have hstep : rtStep cfg table epoch s u = s := by
          unfold rtStep
          rw [if_pos hskip]
        rw [hstep]
        have hmax : maxColorId (acc ++ [u.colorId]) = maxColorId acc := by
          rw [maxColorId_append_singleton]
          rw [hT, hprior] at hskip
          exact max_eq_left hskip.le
        have hne : acc ≠ [] := by
          intro hnil
          rw [hT, hprior, hnil] at hskip
          simp [maxColorId] at hskip
          omega
        exact rt_fold_invariant cfg table epoch B us s (acc ++ [u.colorId]) hwf hlen
          (fun v hv => hc v (by simp [hv])) (fun v hv => ht v (by simp [hv]))
          (by
            intro c hcm
            rcases List.mem_append.mp hcm with h | h
            · exact hacc c h
            · simp at h
              omega)
          (by rw [hprior, hmax])
          (by
            intro hB
            rw [hframe hB, if_neg hne, if_neg (by simp), hmax])
      · have hstep : rtStep cfg table epoch s u =
            { blockColorIds := s.blockColorIds.set (resolvedTarget epoch u) (u8 u.colorId),
              frame := setBlockColorRGB cfg s.frame (resolvedTarget epoch u)
                (colorLookup table u.colorId) } := by
          unfold rtStep
          rw [if_neg hskip]
        rw [hstep]
        have hu8 : ((u8 u.colorId : Nat) : Int) = u.colorId := by
          unfold u8
          rw [Int.emod_eq_of_lt hcu.1 (by omega), Int.toNat_of_nonneg hcu.1]
        have hmax : maxColorId (acc ++ [u.colorId]) = u.colorId := by
          rw [maxColorId_append_singleton]
          rw [hT, hprior] at hskip
          exact max_eq_right (not_lt.mp hskip)
        exact rt_fold_invariant cfg table epoch B us _ (acc ++ [u.colorId])
          (frameWF_setBlockColorRGB _ _ hwf)
          (by simpa using hlen)
          (fun v hv => hc v (by simp [hv])) (fun v hv => ht v (by simp [hv]))
          (by
            intro c hcm
            rcases List.mem_append.mp hcm with h | h
            · exact hacc c h
            · simp at h
              omega)
          (by
            show (((s.blockColorIds.set (resolvedTarget epoch u) (u8 u.colorId)).getD B 0 : Nat) :
                Int) = maxColorId (acc ++ [u.colorId])
            rw [hT, getD_set_self s.blockColorIds B (u8 u.colorId) 0 (by omega), hu8, hmax])
          (by
            intro hB
            show readBlock cfg
                (setBlockColorRGB cfg s.frame (resolvedTarget epoch u)
                  (colorLookup table u.colorId)) B =
              (if acc ++ [u.colorId] = [] then black
               else applyGamma (colorLookup table (maxColorId (acc ++ [u.colorId]))))
            rw [hT, readBlock_setBlockColorRGB_eq _ hwf hB, if_neg (by simp), hmax])
    · rw [if_neg hT]
      by_cases hskip : u.colorId < (s.blockColorIds.getD (resolvedTarget epoch u) 0 : Int)
      · have hstep : rtStep cfg table epoch s u = s := by
          unfold rtStep
          rw [if_pos hskip]
        rw [hstep]
        exact rt_fold_invariant cfg table epoch B us s acc hwf hlen
          (fun v hv => hc v (by simp [hv])) (fun v hv => ht v (by simp [hv]))
          hacc hprior hframe
      · have hstep : rtStep cfg table epoch s u =
            { blockColorIds := s.blockColorIds.set (resolvedTarget epoch u) (u8 u.colorId),
              frame := setBlockColorRGB cfg s.frame (resolvedTarget epoch u)
                (colorLookup table u.colorId) } := by
          unfold rtStep
          rw [if_neg hskip]
        rw [hstep]
        exact rt_fold_invariant cfg table epoch B us _ acc
          (frameWF_setBlockColorRGB _ _ hwf)
          (by simpa using hlen)
          (fun v hv => hc v (by simp [hv])) (fun v hv => ht v (by simp [hv]))
          hacc
          (by
            show (((s.blockColorIds.set (resolvedTarget epoch u) (u8 u.colorId)).getD B 0 : Nat) :
                Int) = maxColorId acc
            rw [getD_set_of_ne s.blockColorIds (u8 u.colorId) 0 hT, hprior])
          (by
            intro hB
            show readBlock cfg
                (setBlockColorRGB cfg s.frame (resolvedTarget epoch u)
                  (colorLookup table u.colorId)) B =
              (if acc = [] then black else applyGamma (colorLookup table (maxColorId acc)))
            rw [readBlock_setBlockColorRGB_ne _ (fun h => hT h.symm), hframe hB])

/-- Characterization of `drawRealtimeMap` under the in-range hypotheses:
it succeeds, and each strand block shows the gamma-corrected table entry of
the maximum colorId targeting it, or black when nothing targets it. -/
theorem drawRealtimeMap_characterization (cfg : LedConfig) (table : List CRGB)
    (sched : List LedUpdate) (epoch : Int)
    (hc : ∀ u ∈ sched, 0 ≤ u.colorId ∧ u.colorId ≤ 255)
    (ht : ∀ u ∈ sched, resolvedTarget epoch u < 512) :
    ∃ f, drawRealtimeMap cfg table sched epoch = .ok f ∧
      ∀ B, blockInRange cfg B = true →
        readBlock cfg f B =
          (if targetsOf sched epoch B = [] then black
           else applyGamma (colorLookup table (maxColorId (targetsOf sched epoch B)))) := by
  unfold drawRealtimeMap
  rw [foldlM_setBlockColorId_ok cfg table epoch sched _ (List.length_replicate 512 0) ht]
  refine ⟨_, rfl, ?_⟩
  intro B hB
  have h := rt_fold_invariant cfg table epoch B sched
    { blockColorIds := List.replicate 512 0, frame := clearLEDs cfg } [] (frameWF_clear cfg)
    (List.length_replicate 512 0) hc ht (fun c hcm => absurd hcm (List.not_mem_nil c))
    (by
      show (((List.replicate 512 (0 : Nat)).getD B 0 : Nat) : Int) = maxColorId []
      rw [getD_replicate_self]
      rfl)
    (fun hB => by
      rw [readBlock_clear, if_pos rfl])
  have h3 := h.2.2 hB
  rw [List.nil_append] at h3
  exact h3

/-- C1 (amended): for a schedule whose colorIds all lie in [0, 255] (the
range the `uint8_t` priority array can record) and whose resolved target
blocks all lie below 512 (the priority array size), `drawRealtimeMap`
succeeds and gives each strand block the color-table entry (gamma-corrected
on write, out-of-range colorIds resolving to black) of the maximum colorId
among the events targeting it, independently of processing order; an event
commits only when its colorId is at least the recorded priority, equal
colorIds re-commit, and untargeted blocks stay black from the clear. -/
theorem C1_realtime_priority_compositing (cfg : LedConfig) (table : List CRGB)
    (sched : List LedUpdate) (epoch : Int)
    (hc : ∀ u ∈ sched, 0 ≤ u.colorId ∧ u.colorId ≤ 255)
    (ht : ∀ u ∈ sched, resolvedTarget epoch u < 512) :
    ∃ f, drawRealtimeMap cfg table sched epoch = .ok f ∧
      (∀ B, blockInRange cfg B = true →
        readBlock cfg f B =
          (if targetsOf sched epoch B = [] then black
           else applyGamma (colorLookup table (maxColorId (targetsOf sched epoch B))))) ∧
      (∀ sched', sched'.Perm sched →
        ∃ f', drawRealtimeMap cfg table sched' epoch = .ok f' ∧
          ∀ B, blockInRange cfg B = true → readBlock cfg f' B = readBlock cfg f B) := by
  obtain ⟨f, hf, hchar⟩ := drawRealtimeMap_characterization cfg table sched epoch hc ht
  refine ⟨f, hf, hchar, ?_⟩
  intro sched' hp
  obtain ⟨f', hf', hchar'⟩ := drawRealtimeMap_characterization cfg table sched' epoch
    (fun u hu => hc u (hp.mem_iff.mp hu)) (fun u hu => ht u (hp.mem_iff.mp hu))
  refine ⟨f', hf', ?_⟩
  intro B hB
  rw [hchar' B hB, hchar B hB]
  have hperm := targetsOf_perm epoch B hp
  by_cases hnil : targetsOf sched epoch B = []
  · have hnil' : targetsOf sched' epoch B = [] := (hnil ▸ hperm).eq_nil
    rw [hnil, hnil']
  · have hnil' : targetsOf sched' epoch B ≠ [] := fun h => hnil ((h ▸ hperm.symm).eq_nil)
    rw [if_neg hnil', if_neg hnil, maxColorId_perm hperm]

/-- C1 counterexample: two events, colorIds 300 and 200, both targeting
block 100 at epoch 0 with a 301-entry color table.  The claim as stated
says block 100 ends as the table entry of the maximum colorId (300, a red
entry), but the `uint8_t` priority store truncates 300 to 44, so the later
colorId-200 event still commits and the pixel ends green. -/
theorem C1_counterexample :
    (drawRealtimeMap ⟨100, false, 0⟩
        (List.replicate 200 ⟨0, 0, 0⟩ ++ ⟨0, 255, 0⟩ ::
          (List.replicate 99 ⟨0, 0, 0⟩ ++ [⟨255, 0, 0⟩]))
        [⟨100, 100, 300, 0⟩, ⟨100, 100, 200, 0⟩] 0).toOption.map
        (fun f => readBlock ⟨100, false, 0⟩ f 100) = some ⟨0, 255, 0⟩ ∧
      applyGamma (colorLookup
          (List.replicate 200 ⟨0, 0, 0⟩ ++ ⟨0, 255, 0⟩ ::
            (List.replicate 99 ⟨0, 0, 0⟩ ++ [⟨255, 0, 0⟩]))
          (maxColorId (targetsOf [⟨100, 100, 300, 0⟩, ⟨100, 100, 200, 0⟩] 0 100))) =
        ⟨255, 0, 0⟩ ∧
      ((⟨0, 255, 0⟩ : CRGB) ≠ ⟨255, 0, 0⟩) :=
  ⟨by decide, by decide, by decide⟩

/-- C1 witness: the amended theorem applied to the single-event schedule of
the specification's own example (pre 150, post 151, colorId 0, timestamp
1000) rendered at epoch 999. -/
theorem C1_witness :
    (∀ u ∈ ([⟨150, 151, 0, 1000⟩] : List LedUpdate), 0 ≤ u.colorId ∧ u.colorId ≤ 255) ∧
      (∀ u ∈ ([⟨150, 151, 0, 1000⟩] : List LedUpdate), resolvedTarget 999 u < 512) ∧
      (∃ f, drawRealtimeMap ⟨100, false, 0⟩ [⟨10, 20, 30⟩] [⟨150, 151, 0, 1000⟩] 999 = .ok f ∧
        (∀ B, blockInRange ⟨100, false, 0⟩ B = true →
          readBlock ⟨100, false, 0⟩ f B =
            (if targetsOf [⟨150, 151, 0, 1000⟩] 999 B = [] then black
             else applyGamma (colorLookup [⟨10, 20, 30⟩]
               (maxColorId (targetsOf [⟨150, 151, 0, 1000⟩] 999 B))))) ∧
        (∀ sched', sched'.Perm [⟨150, 151, 0, 1000⟩] →
          ∃ f', drawRealtimeMap ⟨100, false, 0⟩ [⟨10, 20, 30⟩] sched' 999 = .ok f' ∧
            ∀ B, blockInRange ⟨100, false, 0⟩ B = true →
              readBlock ⟨100, false, 0⟩ f' B = readBlock ⟨100, false, 0⟩ f B)) :=
  ⟨by decide, by decide,
    C1_realtime_priority_compositing ⟨100, false, 0⟩ [⟨10, 20, 30⟩] [⟨150, 151, 0, 1000⟩] 999
      (by decide) (by decide)⟩

/-- C6: a schedule event whose resolved target block is 600 (outside both
strand ranges and not the sentinel 0) makes `drawRealtimeMap` index the
512-byte `blockColorIds` array out of bounds before any strand-range check
runs, instead of being logged and ignored. -/
theorem C6_out_of_bounds_block_access :
    drawRealtimeMap ⟨100, false, 0⟩ [] [⟨600, 600, 1, 0⟩] 0 =
      .error "out-of-bounds access to blockColorIds" := by
  rfl

/-- C2 (amended): a payload whose `timestamp + update` (with `update` as
stored into the `uint8_t` interval, defaulting to the previous interval
when absent) does not exceed the current `nextFetchTime` is rejected:
`colorTable`, `events` and `nextFetchTime` are unchanged and the payload's
own `timestamp` is returned — but the global `updateInterval` has already
been overwritten with the payload's value before the check. -/
theorem C2_stale_payload_rejection (s : ScheduleState) (p : Payload)
    (h : p.timestamp + (uiOf s p : Int) ≤ s.nextFetchTime) :
    (parseLEDMap s p).1.colorTable = s.colorTable ∧
      (parseLEDMap s p).1.ledUpdateSchedule = s.ledUpdateSchedule ∧
      (parseLEDMap s p).1.nextFetchTime = s.nextFetchTime ∧
      (parseLEDMap s p).1.updateInterval = uiOf s p ∧
      (parseLEDMap s p).2 = p.timestamp := by
  simp only [parseLEDMap]
  rw [if_neg (not_lt.mpr h)]
  exact ⟨rfl, rfl, rfl, rfl, rfl⟩

/-- C2 counterexample: state with nextFetchTime 100 and updateInterval 30;
a payload with timestamp 50 and update 40 satisfies 50 + 40 <= 100 and is
rejected, yet the resulting state differs from the original bit for bit:
its updateInterval is now 40. -/
theorem C2_counterexample :
    (⟨"", 50, some 40, [], []⟩ : Payload).timestamp +
        ((uiOf ⟨[], [], 100, 30⟩ ⟨"", 50, some 40, [], []⟩ : Nat) : Int) ≤
      (⟨[], [], 100, 30⟩ : ScheduleState).nextFetchTime ∧
      (parseLEDMap ⟨[], [], 100, 30⟩ ⟨"", 50, some 40, [], []⟩).1 ≠
        (⟨[], [], 100, 30⟩ : ScheduleState) ∧
      (parseLEDMap ⟨[], [], 100, 30⟩ ⟨"", 50, some 40, [], []⟩).1.updateInterval = 40 :=
  ⟨by decide, by decide, by decide⟩

/-- C2 witness: the amended rejection theorem applied to the concrete
stale payload of the counterexample. -/
theorem C2_witness :
    ((⟨"", 50, some 40, [], []⟩ : Payload).timestamp +
        ((uiOf ⟨[], [], 100, 30⟩ ⟨"", 50, some 40, [], []⟩ : Nat) : Int) ≤
      (⟨[], [], 100, 30⟩ : ScheduleState).nextFetchTime) ∧
      ((parseLEDMap ⟨[], [], 100, 30⟩ ⟨"", 50, some 40, [], []⟩).1.colorTable =
          (⟨[], [], 100, 30⟩ : ScheduleState).colorTable ∧
        (parseLEDMap ⟨[], [], 100, 30⟩ ⟨"", 50, some 40, [], []⟩).1.ledUpdateSchedule =
          (⟨[], [], 100, 30⟩ : ScheduleState).ledUpdateSchedule ∧
        (parseLEDMap ⟨[], [], 100, 30⟩ ⟨"", 50, some 40, [], []⟩).1.nextFetchTime =
          (⟨[], [], 100, 30⟩ : ScheduleState).nextFetchTime ∧
        (parseLEDMap ⟨[], [], 100, 30⟩ ⟨"", 50, some 40, [], []⟩).1.updateInterval =
          uiOf ⟨[], [], 100, 30⟩ ⟨"", 50, some 40, [], []⟩ ∧
        (parseLEDMap ⟨[], [], 100, 30⟩ ⟨"", 50, some 40, [], []⟩).2 =
          (⟨"", 50, some 40, [], []⟩ : Payload).timestamp) :=
  ⟨by decide, C2_stale_payload_rejection ⟨[], [], 100, 30⟩ ⟨"", 50, some 40, [], []⟩ (by decide)⟩

/-- C3 (amended): `parseLEDMap` never decreases `nextFetchTime`, and one
whole realtime-mode fetch step of `loop()` never decreases it either; the
claim fails only for the intermediate value between an accepted parse and
the `constrain` clamp of the same iteration. -/
theorem C3_nextFetchTime_monotone :
    (∀ (s : ScheduleState) (p : Payload),
        s.nextFetchTime ≤ (parseLEDMap s p).1.nextFetchTime) ∧
      ∀ (s : ScheduleState) (env : LoopEnv),
        s.nextFetchTime ≤ (loopRealtimeFetch s env).nextFetchTime := by
  have hparse : ∀ (s : ScheduleState) (p : Payload),
      s.nextFetchTime ≤ (parseLEDMap s p).1.nextFetchTime := by
    intro s p
    simp only [parseLEDMap]
    split
    · next h => simpa using le_of_lt h
    · exact le_refl _
  refine ⟨hparse, ?_⟩
  intro s env
  obtain ⟨epoch, mok, dl⟩ := env
  unfold loopRealtimeFetch
  split
  · next hcond =>
    have h1 : s.nextFetchTime < epoch := hcond.1
    cases dl with
    | none =>
      show s.nextFetchTime ≤
        constrain s.nextFetchTime (epoch + 6) (epoch + (s.updateInterval : Int))
      have h2 : (0 : Int) ≤ (s.updateInterval : Int) := Int.ofNat_nonneg _
      unfold constrain
      split
      · omega
      · split <;> omega
    | some p =>
      have h2 := hparse s p
      have h3 : (0 : Int) ≤ ((parseLEDMap s p).1.updateInterval : Int) := Int.ofNat_nonneg _
      show s.nextFetchTime ≤
        constrain (parseLEDMap s p).1.nextFetchTime (epoch + 6)
          (epoch + ((parseLEDMap s p).1.updateInterval : Int))
      unfold constrain
      split
      · omega
      · split <;> omega
  · exact le_refl _

/-- C3 counterexample: with nextFetchTime 999 at epoch 1000, an accepted
payload with base timestamp 2000 and update 30 raises nextFetchTime to
2030, but the constrain clamp in the same loop iteration then lowers it to
1030 — so the value observed after the submission exceeds the value at the
end of the iteration, contradicting monotonicity over the combined
sequence of submissions and loop iterations. -/
theorem C3_counterexample :
    (parseLEDMap ⟨[], [], 999, 30⟩ ⟨"", 2000, some 30, [], []⟩).1.nextFetchTime = 2030 ∧
      (loopRealtimeFetch ⟨[], [], 999, 30⟩
          ⟨1000, true, some ⟨"", 2000, some 30, [], []⟩⟩).nextFetchTime = 1030 ∧
      (1030 : Int) < 2030 :=
  ⟨by decide, by decide, by decide⟩

/-! Timetable helper lemmas. -/

theorem find?_eq_head_filter {α : Type} (p : α → Bool) :
    ∀ l : List α, l.find? p = (l.filter p).head?
  | [] => rfl
  | a :: l => by
    by_cases h : p a = true
    · rw [List.find?_cons_of_pos _ h, List.filter_cons_of_pos h]
      rfl
    · rw [List.find?_cons_of_neg _ (by simpa using h), List.filter_cons_of_neg (by simpa using h)]
      exact find?_eq_head_filter p l

theorem reverse_find?_eq_getLast?_filter {α : Type} (p : α → Bool) (l : List α) :
    l.reverse.find? p = (l.filter p).getLast? := by
  rw [find?_eq_head_filter, List.filter_reverse, List.head?_reverse]

theorem i32_eq_self {n : Int} (h1 : -2147483648 ≤ n) (h2 : n < 2147483648) : i32 n = n := by
  unfold i32
  omega

/-- The elapsed-seconds formula as the specification states it, in exact
integer arithmetic (no 32-bit reinterpretation). -/
def elapsedSpec (startTime current : Nat) : Int :=
  if current ≥ startTime then (current : Int) - (startTime : Int)
  else (86400 - (startTime : Int)) + (current : Int)

theorem elapsedSince_eq_spec {startTime current : Nat} (h1 : startTime < 86400)
    (h2 : current < 86400) :
    elapsedSince startTime current = elapsedSpec startTime current := by
  unfold elapsedSince elapsedSpec i32
  split <;> omega

/-- The current-block selection as the specification states it: the block
of the last entry whose offset is at most `elapsed`, falling back to the
first entry's block (`none` for an empty route). -/
def currentBlockSpec (entries : List TimetableEntry) (elapsed : Int) : Option Int :=
  match (entries.filter (fun e => decide (e.offsetSeconds ≤ elapsed))).getLast? with
  | some e => some e.blockNumber
  | none => entries.head?.map (fun e => e.blockNumber)

/-- C4 (amended): for a non-empty route, a start time in [0, 86400) and a
clock value in [0, 86400), the elapsed seconds equal the claimed formula
exactly, visibility is elapsed strictly between the first and last entry
offsets, and the current block is the claimed last-entry-at-or-before
selection with the entry's `int16_t` block number returned through the
`uint16_t` return type.  (For start times at 2^31 and above, the `int32_t`
wraparound makes the code's elapsed value differ from the claimed
formula.) -/
theorem C4_timetable_visibility_position (t : TrainInstance) (current : Nat)
    (hne : t.route.entries ≠ []) (hcur : current < 86400)
    (hst : t.startTimeSeconds < 86400) :
    elapsedSince t.startTimeSeconds current = elapsedSpec t.startTimeSeconds current ∧
      (t.isVisible current = true ↔
        (elapsedSpec t.startTimeSeconds current >
            ((t.route.entries.head?.map (fun e => e.offsetSeconds)).getD 0) ∧
          elapsedSpec t.startTimeSeconds current <
            ((t.route.entries.getLast?.map (fun e => e.offsetSeconds)).getD 0))) ∧
      t.getCurrentBlock current =
        u16 ((currentBlockSpec t.route.entries
          (elapsedSpec t.startTimeSeconds current)).getD 0) := by
  have helapsed := elapsedSince_eq_spec hst hcur
  refine ⟨helapsed, ?_, ?_⟩
  · rcases hE : t.route.entries with _ | ⟨e0, rest⟩
    · exact absurd hE hne
    · simp only [TrainInstance.isVisible, hE, helapsed, List.head?_cons, Option.map_some,
        Option.getD_some, Bool.and_eq_true, decide_eq_true_iff, List.getLast?_cons,
        List.getLastD_eq_getLast?]
      cases hL : rest.getLast? with
      | none =>
        rcases rest with _ | ⟨e1, rest'⟩
        · simp
        · simp at hL
      | some eL => simp [hL]
  · rcases hE : t.route.entries with _ | ⟨e0, rest⟩
    · exact absurd hE hne
    · simp only [TrainInstance.getCurrentBlock, TrainRoute.getCurrentBlock, hE, helapsed,
        currentBlockSpec]
      rw [show (e0 :: rest).reverse.find?
            (fun e => decide (e.offsetSeconds ≤ elapsedSpec t.startTimeSeconds current)) =
          ((e0 :: rest).filter
            (fun e => decide (e.offsetSeconds ≤ elapsedSpec t.startTimeSeconds current))).getLast?
          from reverse_find?_eq_getLast?_filter _ _]
      cases hfind : ((e0 :: rest).filter
          (fun e => decide (e.offsetSeconds ≤ elapsedSpec t.startTimeSeconds current))).getLast? with
      | none => simp
      | some e => simp

/-- C4 counterexample: a valid `uint32_t` start time of 4294967295 with
current = 0 and entries [(-30, 5), (10, 900)].  The claimed formula gives
elapsed = 86400 - 4294967295 = -4294880895, which precedes the first entry,
so the claim says the current block is the first entry's block 5; the
code's `int32_t` wraparound computes elapsed = 86401 and returns block
900. -/
theorem C4_counterexample :
    TrainInstance.getCurrentBlock ⟨⟨[⟨-30, 5⟩, ⟨10, 900⟩], ⟨0, 0, 0⟩, []⟩, 4294967295⟩ 0 = 900 ∧
      u16 ((currentBlockSpec [⟨-30, 5⟩, ⟨10, 900⟩] (elapsedSpec 4294967295 0)).getD 0) = 5 ∧
      (900 : Nat) ≠ 5 :=
  ⟨by decide, by decide, by decide⟩

/-- C4 witness: the amended theorem applied to the specification's own
example — entries [(-30, 0), (0, 900), (120, 0)], start time 0, clock 50. -/
theorem C4_witness :
    ((⟨⟨[⟨-30, 0⟩, ⟨0, 900⟩, ⟨120, 0⟩], ⟨0, 0, 0⟩, []⟩, 0⟩ : TrainInstance).route.entries ≠ [] ∧
        (50 : Nat) < 86400 ∧
        (⟨⟨[⟨-30, 0⟩, ⟨0, 900⟩, ⟨120, 0⟩], ⟨0, 0, 0⟩, []⟩, 0⟩ :
          TrainInstance).startTimeSeconds < 86400) ∧
      (elapsedSince 0 50 = elapsedSpec 0 50 ∧
        (TrainInstance.isVisible ⟨⟨[⟨-30, 0⟩, ⟨0, 900⟩, ⟨120, 0⟩], ⟨0, 0, 0⟩, []⟩, 0⟩ 50 = true ↔
          (elapsedSpec 0 50 >
              ((([⟨-30, 0⟩, ⟨0, 900⟩, ⟨120, 0⟩] :
                List TimetableEntry).head?.map (fun e => e.offsetSeconds)).getD 0) ∧
            elapsedSpec 0 50 <
              ((([⟨-30, 0⟩, ⟨0, 900⟩, ⟨120, 0⟩] :
                List TimetableEntry).getLast?.map (fun e => e.offsetSeconds)).getD 0))) ∧
        TrainInstance.getCurrentBlock ⟨⟨[⟨-30, 0⟩, ⟨0, 900⟩, ⟨120, 0⟩], ⟨0, 0, 0⟩, []⟩, 0⟩ 50 =
          u16 ((currentBlockSpec [⟨-30, 0⟩, ⟨0, 900⟩, ⟨120, 0⟩] (elapsedSpec 0 50)).getD 0)) :=
  ⟨⟨by decide, by decide, by decide⟩,
    C4_timetable_visibility_position ⟨⟨[⟨-30, 0⟩, ⟨0, 900⟩, ⟨120, 0⟩], ⟨0, 0, 0⟩, []⟩, 0⟩ 50
      (by decide) (by decide) (by decide)⟩

/-! Timetable rendering lemmas. -/

theorem frameWF_trains_fold (cfg : LedConfig) (second : Nat) (color : CRGB) :
    ∀ (ts : List TrainInstance) (f : Frame), FrameWF cfg f →
    FrameWF cfg (ts.foldl
      (fun f tr =>
        if tr.isVisible second then setBlockColorRGB cfg f (tr.getCurrentBlock second) color
        else f) f)
  | [], _, hwf => hwf
  | tr :: ts, f, hwf => by
    rw [List.foldl_cons]
    by_cases hv : tr.isVisible second = true
    · rw [if_pos hv]
      exact frameWF_trains_fold cfg second color ts _ (frameWF_setBlockColorRGB _ _ hwf)
    · rw [if_neg hv]
      exact frameWF_trains_fold cfg second color ts f hwf

theorem trains_fold_characterization (cfg : LedConfig) (second B : Nat) (color : CRGB) :
    ∀ (ts : List TrainInstance) (f : Frame), FrameWF cfg f → blockInRange cfg B = true →
    readBlock cfg (ts.foldl
      (fun f tr =>
        if tr.isVisible second then setBlockColorRGB cfg f (tr.getCurrentBlock second) color
        else f) f) B =
      (if ts.any (fun tr => tr.isVisible second && decide (tr.getCurrentBlock second = B))
       then applyGamma color else readBlock cfg f B)
  | [], _, _, _ => by simp
  | tr :: ts, f, hwf, hB => by
    rw [List.foldl_cons, List.any_cons]
    by_cases hv : tr.isVisible second = true
    · rw [if_pos hv,
        trains_fold_characterization cfg second B color ts _
          (frameWF_setBlockColorRGB _ _ hwf) hB]
      by_cases hblk : tr.getCurrentBlock second = B
      · have hhead : (tr.isVisible second && decide (tr.getCurrentBlock second = B)) = true := by
          simp [hv, hblk]
        rw [hhead, Bool.true_or, if_pos rfl]
        split
        · rfl
        · rw [hblk, readBlock_setBlockColorRGB_eq _ hwf hB]
      · have hhead : (tr.isVisible second && decide (tr.getCurrentBlock second = B)) = false := by
          simp [hblk]
        rw [hhead, Bool.false_or, readBlock_setBlockColorRGB_ne _ (fun hh => hblk hh.symm)]
    · rw [if_neg hv,
        trains_fold_characterization cfg second B color ts f hwf hB]
      have hhead : (tr.isVisible second && decide (tr.getCurrentBlock second = B)) = false := by
        simp [hv]
      rw [hhead, Bool.false_or]

theorem frameWF_drawTrainsForRoute (cfg : LedConfig) (second : Nat) (route : TrainRoute)
    {f : Frame} (hwf : FrameWF cfg f) :
    FrameWF cfg (drawTrainsForRoute cfg second f route) :=
  frameWF_trains_fold cfg second route.color (createTrainsForRoute route) f hwf

theorem readBlock_drawTrainsForRoute (cfg : LedConfig) (second B : Nat) (route : TrainRoute)
    {f : Frame} (hwf : FrameWF cfg f) (hB : blockInRange cfg B = true) :
    readBlock cfg (drawTrainsForRoute cfg second f route) B =
      (if routeOccupies second B route then applyGamma route.color else readBlock cfg f B) :=
  trains_fold_characterization cfg second B route.color (createTrainsForRoute route) f hwf hB

theorem routes_fold_characterization (cfg : LedConfig) (second B : Nat)
    (hB : blockInRange cfg B = true) :
    ∀ (routes : List TrainRoute) (f : Frame), FrameWF cfg f →
    readBlock cfg (routes.foldl (drawTrainsForRoute cfg second) f) B =
      (match (routes.filter (routeOccupies second B)).getLast? with
       | some r => applyGamma r.color
       | none => readBlock cfg f B)
  | [], f, _ => by simp
  | r :: rs, f, hwf => by
    rw [List.foldl_cons,
      routes_fold_characterization cfg second B hB rs _ (frameWF_drawTrainsForRoute cfg second r hwf),
      List.filter_cons]
    by_cases ho : routeOccupies second B r = true
    · rw [if_pos ho]
      rcases hfl : rs.filter (routeOccupies second B) with _ | ⟨x, xs⟩
      · have hrd : readBlock cfg (drawTrainsForRoute cfg second f r) B = applyGamma r.color := by
          rw [readBlock_drawTrainsForRoute cfg second B r hwf hB, if_pos ho]
        simp [hrd]
      · rw [List.getLast?_cons_cons]
        cases hgl : (x :: xs).getLast? with
        | none => exact absurd (List.getLast?_eq_none_iff.mp hgl) (by simp)
        | some y => rfl
    · rw [if_neg ho]
      rcases hfl : rs.filter (routeOccupies second B) with _ | ⟨x, xs⟩
      · have hrd : readBlock cfg (drawTrainsForRoute cfg second f r) B = readBlock cfg f B := by
          rw [readBlock_drawTrainsForRoute cfg second B r hwf hB, if_neg ho]
        simp [hrd]
      · rfl

/-- C7: timetable compositing has no priority arbitration — a strand block
occupied by several visible trains in one render call ends with the
gamma-corrected color of the route iterated last among those occupying it
(black when no route occupies it), unconditionally overwriting the colors
written by earlier-iterated routes. -/
theorem C7_timetable_last_route_wins (cfg : LedConfig) (second : Nat)
    (routes : List TrainRoute) (B : Nat) (hB : blockInRange cfg B = true) :
    readBlock cfg (drawTimetableMap cfg second routes) B =
      (match (routes.filter (routeOccupies second B)).getLast? with
       | some r => applyGamma r.color
       | none => black) := by
  unfold drawTimetableMap
  rw [routes_fold_characterization cfg second B hB routes (clearLEDs cfg) (frameWF_clear cfg)]
  cases (routes.filter (routeOccupies second B)).getLast? with
  | none => exact readBlock_clear cfg B
  | some r => rfl

/-- C7 witness: two routes whose trains both sit on block 100 at second 5
(entries [(-10, 100), (50, 0)], start time 0); the theorem applies, and the
last-iterated route is the one whose color survives. -/
theorem C7_witness :
    blockInRange ⟨8, false, 0⟩ 100 = true ∧
      readBlock ⟨8, false, 0⟩
          (drawTimetableMap ⟨8, false, 0⟩ 5
            [⟨[⟨-10, 100⟩, ⟨50, 0⟩], ⟨255, 0, 0⟩, [0]⟩,
             ⟨[⟨-10, 100⟩, ⟨50, 0⟩], ⟨0, 0, 255⟩, [0]⟩]) 100 =
        (match (([⟨[⟨-10, 100⟩, ⟨50, 0⟩], ⟨255, 0, 0⟩, [0]⟩,
              ⟨[⟨-10, 100⟩, ⟨50, 0⟩], ⟨0, 0, 255⟩, [0]⟩] :
            List TrainRoute).filter (routeOccupies 5 100)).getLast? with
         | some r => applyGamma r.color
         | none => black) :=
  ⟨by decide,
    C7_timetable_last_route_wins ⟨8, false, 0⟩ 5
      [⟨[⟨-10, 100⟩, ⟨50, 0⟩], ⟨255, 0, 0⟩, [0]⟩,
       ⟨[⟨-10, 100⟩, ⟨50, 0⟩], ⟨0, 0, 255⟩, [0]⟩] 100 (by decide)⟩

/-- C10: a route with no timetable entries is never visible, resolves to
the reserved block 0, and contributes nothing to a timetable frame:
removing it from the route list leaves the rendered frame unchanged. -/
theorem C10_empty_route_contributes_nothing (route : TrainRoute)
    (h : route.entries = []) :
    (∀ st current, TrainInstance.isVisible ⟨route, st⟩ current = false) ∧
      (∀ st current, TrainInstance.getCurrentBlock ⟨route, st⟩ current = 0) ∧
      (∀ (cfg : LedConfig) (second : Nat) (pre post : List TrainRoute),
        drawTimetableMap cfg second (pre ++ route :: post) =
          drawTimetableMap cfg second (pre ++ post)) := by
  have hvis : ∀ st current, TrainInstance.isVisible ⟨route, st⟩ current = false := by
    intro st current
    simp [TrainInstance.isVisible, h]
  refine ⟨hvis, ?_, ?_⟩
  · intro st current
    simp [TrainInstance.getCurrentBlock, TrainRoute.getCurrentBlock, h]
  · have hnoop : ∀ (cfg : LedConfig) (second : Nat) (f : Frame),
        drawTrainsForRoute cfg second f route = f := by
      intro cfg second
      unfold drawTrainsForRoute createTrainsForRoute
      induction route.startTimes with
      | nil => intro f; rfl
      | cons a l ih =>
        intro f
        rw [List.map_cons, List.foldl_cons, if_neg (by rw [hvis a second]; simp)]
        exact ih f
    intro cfg second pre post
    unfold drawTimetableMap
    rw [List.foldl_append, List.foldl_cons, hnoop, ← List.foldl_append]

/-- C10 witness: the theorem applied to a concrete route with an empty
entry list, a color and one start time. -/
theorem C10_witness :
    (⟨[], ⟨1, 2, 3⟩, [10]⟩ : TrainRoute).entries = [] ∧
      ((∀ st current,
          TrainInstance.isVisible ⟨⟨[], ⟨1, 2, 3⟩, [10]⟩, st⟩ current = false) ∧
        (∀ st current,
          TrainInstance.getCurrentBlock ⟨⟨[], ⟨1, 2, 3⟩, [10]⟩, st⟩ current = 0) ∧
        (∀ (cfg : LedConfig) (second : Nat) (pre post : List TrainRoute),
          drawTimetableMap cfg second (pre ++ (⟨[], ⟨1, 2, 3⟩, [10]⟩ : TrainRoute) :: post) =
            drawTimetableMap cfg second (pre ++ post))) :=
  ⟨by decide, C10_empty_route_contributes_nothing ⟨[], ⟨1, 2, 3⟩, [10]⟩ (by decide)⟩

/-! Input debouncing. -/

theorem u32sub_exact {t0 t1 : Nat} (hle : t0 ≤ t1) (hlt : t1 - t0 < 4294967296) :
    u32sub t1 t0 = t1 - t0 := by
  unfold u32sub
  omega

/-- C5: a full press (falling edge at `t0`, rising edge at `t1`) on an
idle-high line emits exactly one event, at the rising edge, iff the held
duration strictly exceeds the debounce threshold; a duration at or below
the threshold emits nothing. -/
theorem C5_debounce_press (d : Nat) (b : Btn) (t0 t1 : Nat) (hidle : b.state = true)
    (hle : t0 ≤ t1) (hlt : t1 - t0 < 4294967296) :
    (isrWrapper d b t0 false).2 = none ∧
      (t1 - t0 > d →
        (isrWrapper d (isrWrapper d b t0 false).1 t1 true).2 = some ⟨b.pin⟩) ∧
      (t1 - t0 ≤ d →
        (isrWrapper d (isrWrapper d b t0 false).1 t1 true).2 = none) := by
  have hb1 : isrWrapper d b t0 false = ({ b with state := false, fallingTick := t0 }, none) := by
    unfold isrWrapper
    rw [if_pos (by simp [hidle]), if_pos rfl]
  have hsub : u32sub t1 t0 = t1 - t0 := u32sub_exact hle hlt
  refine ⟨by rw [hb1], ?_, ?_⟩
  · intro hgt
    rw [hb1]
    show (isrWrapper d { b with state := false, fallingTick := t0 } t1 true).2 = some ⟨b.pin⟩
    unfold isrWrapper
    rw [if_pos (by simp), if_neg (by simp), if_pos (show u32sub t1 t0 > d by omega)]
  · intro hge
    rw [hb1]
    show (isrWrapper d { b with state := false, fallingTick := t0 } t1 true).2 = none
    unfold isrWrapper
    rw [if_pos (by simp), if_neg (by simp), if_neg (show ¬u32sub t1 t0 > d by omega)]

/-- C5 witness: with a debounce threshold of 5 ticks, a press held for 6
ticks (one more than the threshold) emits one event and a press held for 4
ticks (one less) emits none. -/
theorem C5_witness :
    ((⟨4, true, 0, 0⟩ : Btn).state = true ∧ (10 : Nat) ≤ 16 ∧ (16 : Nat) - 10 < 4294967296 ∧
      (10 : Nat) ≤ 14 ∧ (14 : Nat) - 10 < 4294967296) ∧
      ((isrWrapper 5 (⟨4, true, 0, 0⟩ : Btn) 10 false).2 = none ∧
        ((16 : Nat) - 10 > 5 →
          (isrWrapper 5 (isrWrapper 5 (⟨4, true, 0, 0⟩ : Btn) 10 false).1 16 true).2 =
            some ⟨(⟨4, true, 0, 0⟩ : Btn).pin⟩) ∧
        ((16 : Nat) - 10 ≤ 5 →
          (isrWrapper 5 (isrWrapper 5 (⟨4, true, 0, 0⟩ : Btn) 10 false).1 16 true).2 = none)) ∧
      ((isrWrapper 5 (⟨4, true, 0, 0⟩ : Btn) 10 false).2 = none ∧
        ((14 : Nat) - 10 > 5 →
          (isrWrapper 5 (isrWrapper 5 (⟨4, true, 0, 0⟩ : Btn) 10 false).1 14 true).2 =
            some ⟨(⟨4, true, 0, 0⟩ : Btn).pin⟩) ∧
        ((14 : Nat) - 10 ≤ 5 →
          (isrWrapper 5 (isrWrapper 5 (⟨4, true, 0, 0⟩ : Btn) 10 false).1 14 true).2 = none)) :=
  ⟨⟨by decide, by decide, by decide, by decide, by decide⟩,
    C5_debounce_press 5 ⟨4, true, 0, 0⟩ 10 16 (by decide) (by decide) (by decide),
    C5_debounce_press 5 ⟨4, true, 0, 0⟩ 10 14 (by decide) (by decide) (by decide)⟩

/-! Status-word packing. -/

theorem lor_disjoint_add {k : Nat} (a b : Nat) (hb : b < 2 ^ k) (ha : 2 ^ k ∣ a) :
    a ||| b = a + b := by
  obtain ⟨q, rfl⟩ := ha
  exact (Nat.mul_add_lt_is_or hb q).symm

theorem extract_byte (w k : Nat) : (w >>> k) &&& 255 = w / 2 ^ k % 256 := by
  rw [Nat.shiftRight_eq_div_pow, show (255 : Nat) = 2 ^ 8 - 1 by norm_num,
    Nat.and_pow_two_sub_one_eq_mod]

theorem packStatusWord_eq (p1 c1 p2 c2 : Nat) (h1 : p1 < 256) (h2 : c1 < 256)
    (h3 : p2 < 256) (h4 : c2 < 256) :
    packStatusWord p1 c1 p2 c2 = p1 * 16777216 + c1 * 65536 + p2 * 256 + c2 := by
  have e24 : (2 : Nat) ^ 24 = 16777216 := by norm_num
  have e16 : (2 : Nat) ^ 16 = 65536 := by norm_num
  have e8 : (2 : Nat) ^ 8 = 256 := by norm_num
  unfold packStatusWord
  rw [Nat.shiftLeft_eq, Nat.shiftLeft_eq, Nat.shiftLeft_eq, e24, e16, e8]
  have s1 : p1 * 16777216 ||| c1 * 65536 = p1 * 16777216 + c1 * 65536 :=
    lor_disjoint_add (k := 24) _ _ (by rw [e24]; omega) ⟨p1, by rw [e24]; ring⟩
  have s2 : p1 * 16777216 + c1 * 65536 ||| p2 * 256 =
      p1 * 16777216 + c1 * 65536 + p2 * 256 :=
    lor_disjoint_add (k := 16) _ _ (by rw [e16]; omega) ⟨p1 * 256 + c1, by rw [e16]; ring⟩
  have s3 : p1 * 16777216 + c1 * 65536 + p2 * 256 ||| c2 =
      p1 * 16777216 + c1 * 65536 + p2 * 256 + c2 :=
    lor_disjoint_add (k := 8) _ _ (by rw [e8]; omega)
      ⟨p1 * 65536 + c1 * 256 + p2, by rw [e8]; ring⟩
  rw [s1, s2, s3]

/-- C9: packing two 8-bit (slotId, command) pairs into the 32-bit status
word as [slot1Id:8][slot1Cmd:8][slot2Id:8][slot2Cmd:8] and decoding it the
way `statusLedManagerTask` does recovers the identical four fields, and a
decoded pair whose slot id is 0 is skipped without applying any command to
the indicator state. -/
theorem C9_status_word_roundtrip (p1 c1 p2 c2 : Nat) (h1 : p1 < 256) (h2 : c1 < 256)
    (h3 : p2 < 256) (h4 : c2 < 256) :
    (decodeSlotPin (packStatusWord p1 c1 p2 c2) 0 = p1 ∧
      decodeSlotCmd (packStatusWord p1 c1 p2 c2) 0 = c1 ∧
      decodeSlotPin (packStatusWord p1 c1 p2 c2) 1 = p2 ∧
      decodeSlotCmd (packStatusWord p1 c1 p2 c2) 1 = c2) ∧
      ∀ (leds : List StatusLed) (cmd : Nat), applySlotCommand leds 0 cmd = leds := by
  have hw := packStatusWord_eq p1 c1 p2 c2 h1 h2 h3 h4
  constructor
  · refine ⟨?_, ?_, ?_, ?_⟩
    · unfold decodeSlotPin
      rw [hw, extract_byte, show (2 : Nat) ^ (24 - 0 * 16) = 16777216 by norm_num]
      omega
    · unfold decodeSlotCmd
      rw [hw, extract_byte, show (2 : Nat) ^ (16 - 0 * 16) = 65536 by norm_num]
      omega
    · unfold decodeSlotPin
      rw [hw, extract_byte, show (2 : Nat) ^ (24 - 1 * 16) = 256 by norm_num]
      omega
    · unfold decodeSlotCmd
      rw [hw, extract_byte, show (2 : Nat) ^ (16 - 1 * 16) = 1 by norm_num]
      omega
  · intro leds cmd
    unfold applySlotCommand
    rw [if_pos rfl]

/-- C9 witness: the round-trip theorem applied to the specification's own
example (slot1 = 5 with ON-green, slot2 = 6 with BLINK-red-slow). -/
theorem C9_witness :
    ((5 : Nat) < 256 ∧ (1 : Nat) < 256 ∧ (6 : Nat) < 256 ∧ (5 : Nat) < 256) ∧
      ((decodeSlotPin (packStatusWord 5 1 6 5) 0 = 5 ∧
        decodeSlotCmd (packStatusWord 5 1 6 5) 0 = 1 ∧
        decodeSlotPin (packStatusWord 5 1 6 5) 1 = 6 ∧
        decodeSlotCmd (packStatusWord 5 1 6 5) 1 = 5) ∧
        ∀ (leds : List StatusLed) (cmd : Nat), applySlotCommand leds 0 cmd = leds) :=
  ⟨⟨by decide, by decide, by decide, by decide⟩,
    C9_status_word_roundtrip 5 1 6 5 (by decide) (by decide) (by decide) (by decide)⟩

/-! Input-pipeline initialization. -/

/-- C8 counterexample: when queue creation fails, `begin` returns to its
caller exactly what it returns on success (nothing — the C++ signature is
`void`), attaches no interrupts and starts no task: the failure is a
logged silent no-op, not an explicit failure surfaced to the caller. -/
theorem C8_counterexample :
    buttonManagerBeginResult [4, 5, 6] false = buttonManagerBeginResult [4, 5, 6] true ∧
      (buttonManagerBegin [4, 5, 6] false).attachedInterruptPins = [] ∧
      (buttonManagerBegin [4, 5, 6] false).taskStarted = false ∧
      (buttonManagerBegin [4, 5, 6] false).serialLog = ["Failed to create button queue!"] :=
  ⟨rfl, by decide, by decide, by decide⟩

/-- C8 (amended): when creation of the button event queue fails, `begin`
prints "Failed to create button queue!" and returns early: no interrupt
handlers are attached and the dispatch task is not started, so the
pipeline never delivers events; no failure value is returned to the
caller (`begin` is `void`). -/
theorem C8_channel_init_failure_logged_noop (pins : List Nat) :
    buttonManagerBegin pins false =
      { queueCreated := false,
        serialLog := ["Failed to create button queue!"],
        attachedInterruptPins := [],
        taskStarted := false } := by
  unfold buttonManagerBegin
  rw [if_pos rfl]

end LedRails
